import Mathlib

/-!
Verification of the OptionsBot option-chain / bear-put-spread core.

The JavaScript source is shallowly embedded: numbers are modelled as
rationals (idealizing IEEE doubles), `Number(x.toFixed(2))` as rounding to
two decimal places, JS `undefined`/optional values as `Option`, and a
thrown `Error` as the `Except.error` branch carrying the message string.
-/

namespace OptionsBot

/-- JS `Number(x.toFixed(2))`: round to 2 decimal places (nearest, ties up,
matching ECMA toFixed which picks the larger candidate on a tie). -/
def round2 (q : ℚ) : ℚ := (round (q * 100) : ℚ) / 100

theorem round2_round2 (q : ℚ) : round2 (round2 q) = round2 q := by
  unfold round2
  rw [div_mul_cancel₀]
  · rw [round_intCast]
  · norm_num

/-- One leg of a spread candidate as consumed by `analyzeBearPutSpreads`
(`src/unnamed/part_008`): `strike`, `premium`, `volume`, `oi`, greeks and
`iv` fields, plus an optional `lotSize`. -/
structure Leg where
  strike : ℚ
  premium : ℚ
  volume : ℚ
  oi : ℚ
  delta : ℚ
  gamma : ℚ
  theta : ℚ
  iv : ℚ
  lotSize : Option ℚ
deriving DecidableEq, Repr

/-- A spread candidate: `{ longPut, shortPut }`. -/
structure Spread where
  longPut : Leg
  shortPut : Leg
deriving DecidableEq, Repr

/-- JS `longPut.lotSize || 75`: `undefined` and `0` are falsy. -/
def effectiveLotSize (l : Option ℚ) : ℚ :=
  match l with
  | none => 75
  | some v => if v = 0 then 75 else v

/-- The metrics object built by `analyzeBearPutSpreads` for one spread. -/
structure Metrics where
  netDebit : ℚ
  maxProfit : ℚ
  maxLoss : ℚ
  breakeven : ℚ
  riskReward : Option ℚ
  liquidityScore : ℕ
  deltaOk : Bool
  gammaOk : Bool
  thetaOk : Bool
  ivOk : Bool
  riskPct : ℚ
  lotSize : ℚ
  strikeDiff : ℚ
deriving DecidableEq, Repr

/-- `{ ...spread, metrics }`: the analyzer's per-candidate result keeps the
original spread and attaches the computed metrics. -/
structure AnalyzedSpread where
  spread : Spread
  metrics : Metrics
deriving DecidableEq, Repr

/-- Body of the `spreads.map` callback in `analyzeBearPutSpreads`
(`src/unnamed/part_008` lines 260-300). -/
def analyzeOneSpread (capital : ℚ) (spread : Spread) : AnalyzedSpread :=
  let longPut := spread.longPut
  let shortPut := spread.shortPut
  let lotSize := effectiveLotSize longPut.lotSize
  let strikeDiff := round2 (longPut.strike - shortPut.strike)
  let netDebit := round2 ((longPut.premium - shortPut.premium) * lotSize)
  let maxProfit := round2 (strikeDiff * lotSize - netDebit)
  let maxLoss := round2 netDebit
  let breakeven := round2 (longPut.strike - netDebit / lotSize)
  let riskReward : Option ℚ :=
    if maxProfit > 0 ∧ maxLoss > 0 then some (round2 (maxProfit / maxLoss)) else none
  let liquidityScore : ℕ :=
    (if longPut.volume > 500 ∧ shortPut.volume > 500 then 1 else 0) +
    (if longPut.oi > 10000 ∧ shortPut.oi > 10000 then 1 else 0) +
    (if |longPut.premium - shortPut.premium| < 10 then 1 else 0)
  let deltaOk := decide (longPut.delta ≤ -(3/10) ∧ longPut.delta ≥ -(7/10))
  let gammaOk := decide (longPut.gamma ≥ 1/10000 ∧ longPut.gamma ≤ 5/10000)
  let thetaOk := decide (longPut.theta > -20)
  let ivOk := decide (longPut.iv < 40)
  let riskPct := round2 (maxLoss / capital * 100)
  { spread := spread
    metrics :=
      { netDebit := netDebit
        maxProfit := maxProfit
        maxLoss := maxLoss
        breakeven := breakeven
        riskReward := riskReward
        liquidityScore := liquidityScore
        deltaOk := deltaOk
        gammaOk := gammaOk
        thetaOk := thetaOk
        ivOk := ivOk
        riskPct := riskPct
        lotSize := lotSize
        strikeDiff := strikeDiff } }

/-- `analyzeBearPutSpreads(spreads, capital = 100000)`
(`src/unnamed/part_008` lines 257-304). -/
def analyzeBearPutSpreads (spreads : List Spread) (capital : ℚ := 100000) :
    List AnalyzedSpread :=
  spreads.map (analyzeOneSpread capital)

/-- The worked example of the spec: longPut strike 22200, premium 185.50,
lot size 75; shortPut strike 22100, premium 125.75. -/
def exampleSpread : Spread :=
  { longPut :=
      { strike := 22200, premium := 185.50, volume := 1000, oi := 20000
        delta := -(1/2), gamma := 2/10000, theta := -10, iv := 20
        lotSize := some 75 }
    shortPut :=
      { strike := 22100, premium := 125.75, volume := 1000, oi := 20000
        delta := -(2/5), gamma := 2/10000, theta := -8, iv := 20
        lotSize := some 75 } }

/-- A candidate whose net debit (11250) exceeds the strike width times the
lot size (7500), so its max profit is negative while its max loss is
positive. -/
def negProfitSpread : Spread :=
  { longPut :=
      { strike := 22200, premium := 200, volume := 1000, oi := 20000
        delta := -(1/2), gamma := 2/10000, theta := -10, iv := 20
        lotSize := some 75 }
    shortPut :=
      { strike := 22100, premium := 50, volume := 1000, oi := 20000
        delta := -(2/5), gamma := 2/10000, theta := -8, iv := 20
        lotSize := some 75 } }

/-- A candidate whose profit/loss ratio 1875/5625 = 1/3 does not terminate
in two decimal places. -/
def thirdRatioSpread : Spread :=
  { longPut :=
      { strike := 22200, premium := 100, volume := 1000, oi := 20000
        delta := -(1/2), gamma := 2/10000, theta := -10, iv := 20
        lotSize := some 75 }
    shortPut :=
      { strike := 22100, premium := 25, volume := 1000, oi := 20000
        delta := -(2/5), gamma := 2/10000, theta := -8, iv := 20
        lotSize := some 75 } }

theorem mem_analyzeBearPutSpreads {spreads : List Spread} {capital : ℚ}
    {r : AnalyzedSpread} (h : r ∈ analyzeBearPutSpreads spreads capital) :
    ∃ s ∈ spreads, r = analyzeOneSpread capital s := by
  simpa [analyzeBearPutSpreads, List.mem_map, eq_comm] using h

/-- C1: every analyzed candidate's metrics follow the spec formulas with
each value rounded to 2 decimal places (net debit, strike width, max
profit, max loss, breakeven), the lot size being the candidate's own
`lotSize` defaulting to 75; on the worked example the values are
netDebit 4481.25, maxProfit 3018.75, maxLoss 4481.25, breakeven 22140.25. -/
theorem C1_spread_metrics (spreads : List Spread) (capital : ℚ)
    (r : AnalyzedSpread) (h : r ∈ analyzeBearPutSpreads spreads capital) :
    (r.metrics.lotSize = effectiveLotSize r.spread.longPut.lotSize ∧
     r.metrics.netDebit =
       round2 ((r.spread.longPut.premium - r.spread.shortPut.premium) * r.metrics.lotSize) ∧
     r.metrics.strikeDiff =
       round2 (r.spread.longPut.strike - r.spread.shortPut.strike) ∧
     r.metrics.maxProfit =
       round2 (r.metrics.strikeDiff * r.metrics.lotSize - r.metrics.netDebit) ∧
     r.metrics.maxLoss = r.metrics.netDebit ∧
     r.metrics.breakeven =
       round2 (r.spread.longPut.strike - r.metrics.netDebit / r.metrics.lotSize)) ∧
    (analyzeBearPutSpreads [exampleSpread]).map
        (fun a => (a.metrics.netDebit, a.metrics.maxProfit, a.metrics.maxLoss,
          a.metrics.breakeven)) =
      [(4481.25, 3018.75, 4481.25, 22140.25)] := by
  constructor
  · obtain ⟨s, _, rfl⟩ := mem_analyzeBearPutSpreads h
    refine ⟨rfl, rfl, rfl, rfl, round2_round2 _, rfl⟩
  · simp only [analyzeBearPutSpreads, List.map, analyzeOneSpread, exampleSpread,
      effectiveLotSize, round2]
    norm_num [round_eq]

theorem C1_spread_metrics_witness :
    (analyzeOneSpread 100000 exampleSpread).metrics.maxLoss =
      (analyzeOneSpread 100000 exampleSpread).metrics.netDebit :=
  ((C1_spread_metrics [exampleSpread] 100000 (analyzeOneSpread 100000 exampleSpread)
      (by simp [analyzeBearPutSpreads])).1).2.2.2.2.1

/-- C2 counterexample: on `negProfitSpread` the analyzer computes
maxLoss = 11250 > 0 yet riskReward is null (the code also requires
maxProfit > 0), so riskReward does not equal maxProfit / maxLoss whenever
maxLoss > 0; and on `thirdRatioSpread` the stored riskReward 0.33 is the
rounded, not the exact, ratio 1875/5625. -/
theorem C2_riskReward_counterexample :
    ((analyzeBearPutSpreads [negProfitSpread]).map
        (fun a => (a.metrics.maxProfit, a.metrics.maxLoss, a.metrics.riskReward)) =
      [(-3750, 11250, none)] ∧ (0 : ℚ) < 11250) ∧
    ((analyzeBearPutSpreads [thirdRatioSpread]).map
        (fun a => (a.metrics.maxProfit, a.metrics.maxLoss, a.metrics.riskReward)) =
      [(1875, 5625, some (33/100))] ∧ (33/100 : ℚ) ≠ 1875 / 5625) := by
  refine ⟨⟨?_, by norm_num⟩, ?_, by norm_num⟩
  · simp only [analyzeBearPutSpreads, List.map, analyzeOneSpread, negProfitSpread,
      effectiveLotSize, round2]
    norm_num [round_eq]
  · simp only [analyzeBearPutSpreads, List.map, analyzeOneSpread, thirdRatioSpread,
      effectiveLotSize, round2]
    norm_num [round_eq]

/-- C2 (amended): riskReward equals maxProfit / maxLoss rounded to 2
decimal places whenever both maxProfit > 0 and maxLoss > 0, and is null
(never a thrown exception, never a division) whenever maxProfit ≤ 0 or
maxLoss ≤ 0 — in particular whenever maxLoss ≤ 0. -/
theorem C2_riskReward (spreads : List Spread) (capital : ℚ)
    (r : AnalyzedSpread) (h : r ∈ analyzeBearPutSpreads spreads capital) :
    (0 < r.metrics.maxProfit ∧ 0 < r.metrics.maxLoss →
      r.metrics.riskReward = some (round2 (r.metrics.maxProfit / r.metrics.maxLoss))) ∧
    (r.metrics.maxProfit ≤ 0 ∨ r.metrics.maxLoss ≤ 0 →
      r.metrics.riskReward = none) := by
  obtain ⟨s, _, rfl⟩ := mem_analyzeBearPutSpreads h
  simp only [analyzeOneSpread]
  constructor
  · intro hpos
    rw [if_pos hpos]
  · intro hnp
    rw [if_neg]
    rintro ⟨hp, hl⟩
    rcases hnp with h0 | h0 <;> linarith

theorem C2_riskReward_witness :
    (analyzeOneSpread 100000 negProfitSpread).metrics.riskReward = none :=
  (C2_riskReward [negProfitSpread] 100000 (analyzeOneSpread 100000 negProfitSpread)
      (by simp [analyzeBearPutSpreads])).2
    (Or.inl (by
      simp only [analyzeOneSpread, negProfitSpread, effectiveLotSize, round2]
      norm_num [round_eq]))

/-- The liquidity condition claimed for the analyzer, modelled from the
spec's words (volume ≥ 50 and open interest ≥ 400 on both legs); the code
has no such boolean, so this definition exists only to be compared with
the analyzer's actual annotation. -/
def specLiquidityPass (s : Spread) : Bool :=
  decide (s.longPut.volume ≥ 50 ∧ s.longPut.oi ≥ 400 ∧
    s.shortPut.volume ≥ 50 ∧ s.shortPut.oi ≥ 400)

/-- Both legs at exactly volume 50 and open interest 400: the boundary
case the claim says passes. -/
def liqBoundarySpread : Spread :=
  { longPut :=
      { strike := 22200, premium := 185.50, volume := 50, oi := 400
        delta := -(1/2), gamma := 2/10000, theta := -10, iv := 20
        lotSize := some 75 }
    shortPut :=
      { strike := 22100, premium := 125.75, volume := 50, oi := 400
        delta := -(2/5), gamma := 2/10000, theta := -8, iv := 20
        lotSize := some 75 } }

/-- Identical to `liqBoundarySpread` except the long leg's volume is 49:
the boundary case the claim says fails. -/
def liqBelowSpread : Spread :=
  { liqBoundarySpread with
    longPut := { liqBoundarySpread.longPut with volume := 49 } }

/-- C3 counterexample: the claimed boolean is true on `liqBoundarySpread`
and false on `liqBelowSpread`, yet the analyzer produces the very same
metrics object for both candidates — its only liquidity annotation is the
numeric `liquidityScore` (thresholds 500 / 10000), so no field of the
analyzer's output is the claimed `liquidityPass` boolean. -/
theorem C3_liquidity_counterexample :
    specLiquidityPass liqBoundarySpread = true ∧
    specLiquidityPass liqBelowSpread = false ∧
    (analyzeBearPutSpreads [liqBoundarySpread]).map (fun a => a.metrics) =
      (analyzeBearPutSpreads [liqBelowSpread]).map (fun a => a.metrics) := by
  refine ⟨by norm_num [specLiquidityPass, liqBoundarySpread],
    by norm_num [specLiquidityPass, liqBelowSpread, liqBoundarySpread], ?_⟩
  simp only [analyzeBearPutSpreads, List.map, analyzeOneSpread, liqBelowSpread,
    liqBoundarySpread, effectiveLotSize, round2]
  norm_num

/-- C3 (amended): the analyzer annotates each candidate with a numeric
`liquidityScore` — one point when both legs have volume > 500, one when
both legs have open interest > 10000, one when the premium gap is below
10 — and the annotation never removes a candidate: the output lists the
input candidates unchanged, in order. -/
theorem C3_liquidity (spreads : List Spread) (capital : ℚ) :
    (analyzeBearPutSpreads spreads capital).map (fun a => a.spread) = spreads ∧
    ∀ r ∈ analyzeBearPutSpreads spreads capital,
      r.metrics.liquidityScore =
        (if r.spread.longPut.volume > 500 ∧ r.spread.shortPut.volume > 500 then 1 else 0) +
        (if r.spread.longPut.oi > 10000 ∧ r.spread.shortPut.oi > 10000 then 1 else 0) +
        (if |r.spread.longPut.premium - r.spread.shortPut.premium| < 10 then 1 else 0) := by
  constructor
  · simp [analyzeBearPutSpreads, List.map_map, Function.comp_def, analyzeOneSpread]
  · intro r hr
    obtain ⟨s, _, rfl⟩ := mem_analyzeBearPutSpreads hr
    rfl

theorem C3_liquidity_witness :
    (analyzeOneSpread 100000 liqBoundarySpread).metrics.liquidityScore = 0 := by
  have h := (C3_liquidity [liqBoundarySpread] 100000).2
    (analyzeOneSpread 100000 liqBoundarySpread) (by simp [analyzeBearPutSpreads])
  rw [h]
  norm_num [analyzeOneSpread, liqBoundarySpread, abs_of_nonneg]

/-! ## Sorting

JS `array.sort(comparator)` with a numeric-difference comparator is
modelled as insertion sort on a rational key. -/

/-- Insert `x` into `l` before the first element whose key is not below
`x`'s. -/
def insertByKey {α : Type} (key : α → ℚ) (x : α) : List α → List α
  | [] => [x]
  | y :: ys => if key x ≤ key y then x :: y :: ys else y :: insertByKey key x ys

/-- Sort ascending by key; models `array.sort((a, b) => key(a) - key(b))`. -/
def sortByKey {α : Type} (key : α → ℚ) (l : List α) : List α :=
  l.foldr (insertByKey key) []

theorem insertByKey_perm {α : Type} (key : α → ℚ) (x : α) (l : List α) :
    (insertByKey key x l).Perm (x :: l) := by
  induction l with
  | nil => simp [insertByKey]
  | cons y ys ih =>
    by_cases h : key x ≤ key y
    · simp [insertByKey, h]
    · simp only [insertByKey, if_neg h]
      exact ((ih.cons y).trans (List.Perm.swap x y ys))

theorem sortByKey_perm {α : Type} (key : α → ℚ) (l : List α) :
    (sortByKey key l).Perm l := by
  induction l with
  | nil => simp [sortByKey]
  | cons y ys ih =>
    exact (insertByKey_perm key y (sortByKey key ys)).trans (ih.cons y)

theorem mem_sortByKey {α : Type} {key : α → ℚ} {x : α} {l : List α} :
    x ∈ sortByKey key l ↔ x ∈ l :=
  (sortByKey_perm key l).mem_iff

theorem length_sortByKey {α : Type} (key : α → ℚ) (l : List α) :
    (sortByKey key l).length = l.length :=
  (sortByKey_perm key l).length_eq

theorem insertByKey_pairwise {α : Type} {key : α → ℚ} {x : α} {l : List α}
    (h : l.Pairwise (fun a b => key a ≤ key b)) :
    (insertByKey key x l).Pairwise (fun a b => key a ≤ key b) := by
  induction l with
  | nil => simp [insertByKey]
  | cons y ys ih =>
    rcases List.pairwise_cons.1 h with ⟨hy, hys⟩
    by_cases hxy : key x ≤ key y
    · rw [insertByKey, if_pos hxy]
      refine List.pairwise_cons.2 ⟨?_, h⟩
      intro z hz
      rcases hz with _ | hz
      · exact hxy
      · exact hxy.trans (hy _ (by assumption))
    · rw [insertByKey, if_neg hxy]
      refine List.pairwise_cons.2 ⟨?_, ih hys⟩
      intro z hz
      have hz' := (insertByKey_perm key x ys).mem_iff.1 hz
      rcases List.mem_cons.1 hz' with rfl | hz''
      · exact le_of_not_le hxy
      · exact hy _ hz''

theorem sortByKey_pairwise {α : Type} (key : α → ℚ) (l : List α) :
    (sortByKey key l).Pairwise (fun a b => key a ≤ key b) := by
  induction l with
  | nil => simp [sortByKey]
  | cons y ys ih => exact insertByKey_pairwise ih

/-! ## Option chain rows (`OptionChainService.js`) -/

/-- One side (call or put) of a strike row as built by
`getRelevantStrikesFromLists`. `daysToExpiry` is not produced by the
service (JS `undefined`), but is read by the downside tool, so it is
carried as an `Option`. -/
structure OptionQuote where
  lastPrice : ℚ
  change : ℚ
  pChange : ℚ
  volume : ℚ
  oi : ℚ
  impliedVolatility : ℚ
  daysToExpiry : Option ℚ
deriving DecidableEq, Repr

/-- The `|| 0` fallback row side used when one side has no quote at a
strike. -/
def zeroQuote : OptionQuote :=
  { lastPrice := 0, change := 0, pChange := 0, volume := 0, oi := 0
    impliedVolatility := 0, daysToExpiry := none }

/-- A combined strike row `{ strikePrice, call, put }`. -/
structure OptionRow where
  strikePrice : ℚ
  call : OptionQuote
  put : OptionQuote
deriving DecidableEq, Repr

/-- A raw CE/PE entry as returned by the upstream API. -/
structure NseOption where
  strikePrice : ℚ
  lastPrice : ℚ
  change : ℚ
  pChange : ℚ
  totalTradedVolume : ℚ
  openInterest : ℚ
  impliedVolatility : ℚ
deriving DecidableEq, Repr

/-- Field selection performed on a present CE/PE entry by
`getRelevantStrikesFromLists`. -/
def quoteFromNse (o : NseOption) : OptionQuote :=
  { lastPrice := o.lastPrice, change := o.change, pChange := o.pChange
    volume := o.totalTradedVolume, oi := o.openInterest
    impliedVolatility := o.impliedVolatility, daysToExpiry := none }

/-- `getRelevantStrikes(optionData, atmStrike, range = 5)`
(`OptionChainService.js` lines 289-303): sort by strike, find the ATM
index, slice `[max(0, i - range), min(len - 1, i + range)]` inclusive;
when the ATM strike is absent, return the first `range * 2 + 1` rows. -/
def getRelevantStrikes (optionData : List OptionRow) (atmStrike : ℚ)
    (range : ℕ := 5) : List OptionRow :=
  let sortedData := sortByKey (fun row => row.strikePrice) optionData
  match sortedData.findIdx? (fun item => decide (item.strikePrice = atmStrike)) with
  | none => sortedData.take (range * 2 + 1)
  | some atmIndex =>
    let startIndex := atmIndex - range
    let endIndex := min (sortedData.length - 1) (atmIndex + range)
    (sortedData.drop startIndex).take (endIndex + 1 - startIndex)

/-- C6: the strike-window selection is total (never an exception, even at
the array edges), returns at most `2 × range + 1` rows, returns a
contiguous slice of the sorted data whose rows all come from the input,
and — when the center strike occurs in the data, at sorted index `i` —
returns exactly the slice from `i - range` to `min(len - 1, i + range)`
inclusive (clamped), which contains the center row. -/
theorem C6_strike_window (optionData : List OptionRow) (atmStrike : ℚ) (range : ℕ) :
    (getRelevantStrikes optionData atmStrike range).length ≤ 2 * range + 1 ∧
    (∃ pre post, pre ++ getRelevantStrikes optionData atmStrike range ++ post =
      sortByKey (fun row => row.strikePrice) optionData) ∧
    (∀ row ∈ getRelevantStrikes optionData atmStrike range, row ∈ optionData) ∧
    (∀ i, (sortByKey (fun row => row.strikePrice) optionData).findIdx?
        (fun item => decide (item.strikePrice = atmStrike)) = some i →
      getRelevantStrikes optionData atmStrike range =
        ((sortByKey (fun row => row.strikePrice) optionData).drop (i - range)).take
          (min ((sortByKey (fun row => row.strikePrice) optionData).length - 1)
            (i + range) + 1 - (i - range)) ∧
      ∃ row ∈ getRelevantStrikes optionData atmStrike range,
        row.strikePrice = atmStrike) := by
  set sorted := sortByKey (fun row => row.strikePrice) optionData with hs
  have hmemsorted : ∀ row ∈ sorted, row ∈ optionData := fun row hr => mem_sortByKey.1 hr
  rcases h : sorted.findIdx? (fun item => decide (item.strikePrice = atmStrike)) with _ | i
  · have hout : getRelevantStrikes optionData atmStrike range = sorted.take (range * 2 + 1) := by
      simp only [getRelevantStrikes]
      rw [← hs, h]
    refine ⟨?_, ⟨[], sorted.drop (range * 2 + 1), ?_⟩, ?_, ?_⟩
    · rw [hout]
      have := List.length_take (range * 2 + 1) sorted
      omega
    · rw [hout]
      simp [List.take_append_drop]
    · intro row hr
      rw [hout] at hr
      exact hmemsorted row (List.mem_of_mem_take hr)
    · intro i hi
      rw [h] at hi
      cases hi
  · obtain ⟨hlt, hp, -⟩ := List.findIdx?_eq_some_iff_getElem.1 h
    have hout : getRelevantStrikes optionData atmStrike range =
        (sorted.drop (i - range)).take
          (min (sorted.length - 1) (i + range) + 1 - (i - range)) := by
      simp only [getRelevantStrikes]
      rw [← hs, h]
    refine ⟨?_, ?_, ?_, ?_⟩
    · rw [hout]
      have h1 := List.length_take
        (min (sorted.length - 1) (i + range) + 1 - (i - range)) (sorted.drop (i - range))
      have h2 := List.length_drop (i - range) sorted
      omega
    · refine ⟨sorted.take (i - range),
        (sorted.drop (i - range)).drop
          (min (sorted.length - 1) (i + range) + 1 - (i - range)), ?_⟩
      rw [hout, List.append_assoc, List.take_append_drop, List.take_append_drop]
    · intro row hr
      rw [hout] at hr
      exact hmemsorted row (List.mem_of_mem_drop (List.mem_of_mem_take hr))
    · intro i' hi'
      rw [h] at hi'
      obtain rfl : i = i' := by injection hi'
      refine ⟨hout, sorted[i], ?_, by simpa using hp⟩
      rw [hout]
      have hlen : i - (i - range) <
          (List.take (min (sorted.length - 1) (i + range) + 1 - (i - range))
            (sorted.drop (i - range))).length := by
        rw [List.length_take, List.length_drop]
        omega
      have hget : (List.take (min (sorted.length - 1) (i + range) + 1 - (i - range))
          (sorted.drop (i - range)))[i - (i - range)] = sorted[i] := by
        rw [List.getElem_take, List.getElem_drop]
        congr 1
        omega
      rw [← hget]
      exact List.getElem_mem _

/-- A bare strike row with empty quotes, for concrete instances. -/
def mkRow (strike : ℚ) : OptionRow :=
  { strikePrice := strike, call := zeroQuote, put := zeroQuote }

theorem C6_strike_window_witness :
    ∃ row ∈ getRelevantStrikes [mkRow 300, mkRow 100, mkRow 200] 200 1,
      row.strikePrice = 200 :=
  ((C6_strike_window [mkRow 300, mkRow 100, mkRow 200] 200 1).2.2.2 1 (by decide)).2

/-- `getRelevantStrikesFromLists(ceOptions, peOptions, atmStrike, range = 5)`
(`OptionChainService.js` lines 523-556): collect the set of strikes of
both lists, sort ascending, and build one `{ strikePrice, call, put }` row
per strike, falling back to zeroed quote fields for a side with no entry
at that strike (the `?.` / `|| 0` chain). The `atmStrike` and `range`
parameters are accepted but unused ("Return all strikes, not just a
range"). -/
def getRelevantStrikesFromLists (ceOptions peOptions : List NseOption)
    (atmStrike : ℚ) (range : ℕ := 5) : List OptionRow :=
  let allStrikes :=
    (ceOptions.map (fun o => o.strikePrice) ++ peOptions.map (fun o => o.strikePrice)).dedup
  let sortedStrikes := sortByKey id allStrikes
  sortedStrikes.map (fun strikePrice =>
    { strikePrice := strikePrice
      call :=
        match ceOptions.find? (fun o => decide (o.strikePrice = strikePrice)) with
        | some o => quoteFromNse o
        | none => zeroQuote
      put :=
        match peOptions.find? (fun o => decide (o.strikePrice = strikePrice)) with
        | some o => quoteFromNse o
        | none => zeroQuote })

/-- C7: the row list actually used by `getOptionChain` has exactly one row
per unique strike of the union of the CE and PE lists, in strictly
ascending strike order; a side with no entry at a strike is zero-filled;
and neither `atmStrike` nor `range` affects the output, so the result is
not bounded by the requested window size. -/
theorem C7_rows_from_lists (ceOptions peOptions : List NseOption)
    (atmStrike : ℚ) (range : ℕ) :
    ((getRelevantStrikesFromLists ceOptions peOptions atmStrike range).map
      (fun row => row.strikePrice)).Pairwise (· < ·) ∧
    (∀ q : ℚ,
      q ∈ (getRelevantStrikesFromLists ceOptions peOptions atmStrike range).map
          (fun row => row.strikePrice) ↔
        q ∈ ceOptions.map (fun o => o.strikePrice) ∨
        q ∈ peOptions.map (fun o => o.strikePrice)) ∧
    (∀ row ∈ getRelevantStrikesFromLists ceOptions peOptions atmStrike range,
      (row.strikePrice ∉ ceOptions.map (fun o => o.strikePrice) →
        row.call = zeroQuote) ∧
      (row.strikePrice ∉ peOptions.map (fun o => o.strikePrice) →
        row.put = zeroQuote)) ∧
    (∀ (atmStrike' : ℚ) (range' : ℕ),
      getRelevantStrikesFromLists ceOptions peOptions atmStrike' range' =
        getRelevantStrikesFromLists ceOptions peOptions atmStrike range) := by
  set u := (ceOptions.map (fun o => o.strikePrice) ++
    peOptions.map (fun o => o.strikePrice)).dedup with hu
  have hperm : (sortByKey id u).Perm u := sortByKey_perm id u
  have hnodup : (sortByKey id u).Nodup := hperm.nodup_iff.2 (List.nodup_dedup _)
  have hmapstrikes :
      (getRelevantStrikesFromLists ceOptions peOptions atmStrike range).map
        (fun row => row.strikePrice) = sortByKey id u := by
    simp only [getRelevantStrikesFromLists, ← hu, List.map_map, Function.comp_def]
    exact List.map_id' _
  refine ⟨?_, ?_, ?_, fun a r => rfl⟩
  · rw [hmapstrikes]
    have hle := sortByKey_pairwise id u
    have := hle.and hnodup
    exact this.imp (fun h => lt_of_le_of_ne h.1 h.2)
  · intro q
    rw [hmapstrikes, hperm.mem_iff]
    simp [hu, List.mem_dedup]
  · intro row hrow
    simp only [getRelevantStrikesFromLists, ← hu, List.mem_map] at hrow
    obtain ⟨s, -, rfl⟩ := hrow
    constructor
    · intro hnot
      have : ceOptions.find? (fun o => decide (o.strikePrice = s)) = none := by
        rw [List.find?_eq_none]
        intro o ho hs
        exact hnot (List.mem_map.2 ⟨o, ho, by simpa using hs⟩)
      simp [this]
    · intro hnot
      have : peOptions.find? (fun o => decide (o.strikePrice = s)) = none := by
        rw [List.find?_eq_none]
        intro o ho hs
        exact hnot (List.mem_map.2 ⟨o, ho, by simpa using hs⟩)
      simp [this]

/-- A raw NSE entry with the given strike and fixed other fields, for
concrete instances. -/
def mkNse (strike : ℚ) : NseOption :=
  { strikePrice := strike, lastPrice := 10, change := 0, pChange := 0
    totalTradedVolume := 100, openInterest := 500, impliedVolatility := 15 }

theorem C7_rows_from_lists_witness :
    (200 : ℚ) ∈ (getRelevantStrikesFromLists [mkNse 100] [mkNse 200] 0 5).map
      (fun row => row.strikePrice) :=
  ((C7_rows_from_lists [mkNse 100] [mkNse 200] 0 5).2.1 200).mpr (Or.inr (by decide))

/-! ## Expiry selection (`getOptionChain`, step 2)

An expiry-date string is modelled already parsed into its `Date`
components: full year, 0-based month (as JS `getMonth()`), day of month. -/

structure ExpiryDate where
  year : ℕ
  month : ℕ
  day : ℕ
deriving DecidableEq, Repr

/-- JS `Date` comparison `curr.dateObj > latest.dateObj` (here stated as
`latest < curr`): lexicographic on (year, month, day). -/
def dateLt (a b : ExpiryDate) : Prop :=
  a.year < b.year ∨ (a.year = b.year ∧
    (a.month < b.month ∨ (a.month = b.month ∧ a.day < b.day)))

instance (a b : ExpiryDate) : Decidable (dateLt a b) := by
  unfold dateLt
  infer_instance

/-- The reducer body `curr.dateObj > latest.dateObj ? curr : latest`. -/
def pickLater (latest curr : ExpiryDate) : ExpiryDate :=
  if dateLt latest curr then curr else latest

/-- `targetMonth = now.getMonth() + monthOffset` normalized:
`(now.getFullYear() + ⌊targetMonth / 12⌋, targetMonth % 12)`. -/
def targetYM (nowYear nowMonth offset : ℕ) : ℕ × ℕ :=
  (nowYear + (nowMonth + offset) / 12, (nowMonth + offset) % 12)

/-- The filter `dateObj.getMonth() === normalizedTargetMonth &&
dateObj.getFullYear() === targetYear`. -/
def matchesTarget (e : ExpiryDate) (ym : ℕ × ℕ) : Bool :=
  e.month == ym.2 && e.year == ym.1

/-- The `for (let monthOffset = 3; monthOffset >= 0; monthOffset--)` loop:
at the first offset whose filtered list is nonempty, reduce it with
`pickLater` and stop; report failure (the thrown
`'No expiry found for the next 3 months or earlier'`) when every offset is
exhausted. -/
def selectLoop (expiryDates : List ExpiryDate) (nowYear nowMonth : ℕ) :
    List ℕ → Option ExpiryDate
  | [] => none
  | offset :: rest =>
    match expiryDates.filter
        (fun e => matchesTarget e (targetYM nowYear nowMonth offset)) with
    | [] => selectLoop expiryDates nowYear nowMonth rest
    | f :: fs => some (fs.foldl pickLater f)

/-- Expiry selection in `getOptionChain` (`OptionChainService.js` lines
141-181): try month offsets 3, 2, 1, 0. -/
def selectTargetExpiry (expiryDates : List ExpiryDate) (nowYear nowMonth : ℕ) :
    Option ExpiryDate :=
  selectLoop expiryDates nowYear nowMonth [3, 2, 1, 0]

theorem dateLt_irrefl (a : ExpiryDate) : ¬ dateLt a a := by
  unfold dateLt
  omega

theorem not_dateLt_trans {a b c : ExpiryDate}
    (hab : ¬ dateLt a b) (hbc : ¬ dateLt b c) : ¬ dateLt a c := by
  unfold dateLt at *
  omega

theorem foldl_pickLater_spec (fs : List ExpiryDate) :
    ∀ f : ExpiryDate,
      fs.foldl pickLater f ∈ f :: fs ∧
      ∀ x ∈ f :: fs, ¬ dateLt (fs.foldl pickLater f) x := by
  induction fs with
  | nil =>
    intro f
    refine ⟨by simp, ?_⟩
    intro x hx
    rw [List.mem_singleton] at hx
    subst hx
    exact dateLt_irrefl _
  | cons c t ih =>
    intro f
    rw [List.foldl_cons]
    obtain ⟨hmem, hmax⟩ := ih (pickLater f c)
    have hpc : pickLater f c = c ∨ pickLater f c = f := by
      unfold pickLater
      split <;> simp
    have hnotc : ¬ dateLt (pickLater f c) c := by
      unfold pickLater
      split
      · exact dateLt_irrefl c
      · assumption
    have hnotf : ¬ dateLt (pickLater f c) f := by
      unfold pickLater
      split
      · rename_i hlt
        unfold dateLt at *
        omega
      · exact dateLt_irrefl f
    constructor
    · rcases List.mem_cons.1 hmem with he | ht
      · rcases hpc with h | h <;> rw [he, h] <;> simp
      · simp [ht]
    · intro x hx
      rcases List.mem_cons.1 hx with rfl | hx'
      · exact not_dateLt_trans (hmax _ (List.mem_cons_self _ _)) hnotf
      rcases List.mem_cons.1 hx' with rfl | hx''
      · exact not_dateLt_trans (hmax _ (List.mem_cons_self _ _)) hnotc
      · exact hmax _ (List.mem_cons_of_mem _ hx'')

theorem selectLoop_eq_none_iff (expiryDates : List ExpiryDate)
    (nowYear nowMonth : ℕ) (offsets : List ℕ) :
    selectLoop expiryDates nowYear nowMonth offsets = none ↔
      ∀ o ∈ offsets, expiryDates.filter
        (fun e => matchesTarget e (targetYM nowYear nowMonth o)) = [] := by
  induction offsets with
  | nil => simp [selectLoop]
  | cons o rest ih =>
    rw [selectLoop]
    rcases hf : expiryDates.filter
        (fun e => matchesTarget e (targetYM nowYear nowMonth o)) with _ | ⟨f, fs⟩
    · constructor
      · intro h
        rw [List.forall_mem_cons]
        exact ⟨hf, ih.1 h⟩
      · intro h
        rw [List.forall_mem_cons] at h
        exact ih.2 h.2
    · constructor
      · intro h
        exact (Option.some_ne_none _ h).elim
      · intro h
        have h1 := h o (List.mem_cons_self _ _)
        rw [hf] at h1
        cases h1

theorem selectLoop_eq_some (expiryDates : List ExpiryDate)
    (nowYear nowMonth : ℕ) (offsets : List ℕ) (e : ExpiryDate)
    (h : selectLoop expiryDates nowYear nowMonth offsets = some e) :
    ∃ o ∈ offsets,
      e ∈ expiryDates ∧
      matchesTarget e (targetYM nowYear nowMonth o) = true ∧
      (∀ x ∈ expiryDates, matchesTarget x (targetYM nowYear nowMonth o) = true →
        ¬ dateLt e x) ∧
      ∃ pre suf, offsets = pre ++ o :: suf ∧
        ∀ o' ∈ pre, expiryDates.filter
          (fun x => matchesTarget x (targetYM nowYear nowMonth o')) = [] := by
  induction offsets with
  | nil => cases h
  | cons o rest ih =>
    rw [selectLoop] at h
    rcases hf : expiryDates.filter
        (fun x => matchesTarget x (targetYM nowYear nowMonth o)) with _ | ⟨f, fs⟩
    · rw [hf] at h
      obtain ⟨o', ho', hmem, hmatch, hmax, pre, suf, hsplit, hpre⟩ := ih h
      exact ⟨o', List.mem_cons_of_mem _ ho', hmem, hmatch, hmax, o :: pre, suf,
        by rw [hsplit]; rfl,
        by
          intro x hx
          rcases List.mem_cons.1 hx with rfl | hx'
          · exact hf
          · exact hpre x hx'⟩
    · rw [hf] at h
      obtain rfl : fs.foldl pickLater f = e := by injection h
      obtain ⟨hmem, hmax⟩ := foldl_pickLater_spec fs f
      rw [← hf] at hmem
      have hmem' := List.mem_filter.1 hmem
      refine ⟨o, List.mem_cons_self _ _, hmem'.1, by simpa using hmem'.2, ?_,
        [], rest, rfl, by simp⟩
      intro x hxmem hxmatch
      have : x ∈ f :: fs := by
        rw [← hf]
        exact List.mem_filter.2 ⟨hxmem, by simpa using hxmatch⟩
      exact hmax x this

/-- C4: expiry selection is a pure function of the expiry list and "now":
(a) the target (year, month) for an offset is the calendar month
`nowMonth + offset` with overflow normalized into the year; (b) selection
fails (the thrown error) exactly when no expiry matches any of the
offsets 3, 2, 1, 0; (c) a returned expiry comes from the list, matches
the target month of some offset `o`, every larger offset among 3..0
matched nothing, and among all expiries of that target month the returned
one has the latest date — in particular the latest day-of-month. -/
theorem C4_expiry_selection (expiryDates : List ExpiryDate) (nowYear nowMonth : ℕ) :
    (∀ offset : ℕ,
      (targetYM nowYear nowMonth offset).2 < 12 ∧
      12 * (targetYM nowYear nowMonth offset).1 + (targetYM nowYear nowMonth offset).2 =
        12 * nowYear + nowMonth + offset) ∧
    (selectTargetExpiry expiryDates nowYear nowMonth = none ↔
      ∀ o ∈ [3, 2, 1, 0], expiryDates.filter
        (fun e => matchesTarget e (targetYM nowYear nowMonth o)) = []) ∧
    (∀ e, selectTargetExpiry expiryDates nowYear nowMonth = some e →
      ∃ o ∈ [3, 2, 1, 0],
        e ∈ expiryDates ∧
        e.month = (targetYM nowYear nowMonth o).2 ∧
        e.year = (targetYM nowYear nowMonth o).1 ∧
        (∀ x ∈ expiryDates,
          x.month = (targetYM nowYear nowMonth o).2 →
          x.year = (targetYM nowYear nowMonth o).1 → x.day ≤ e.day) ∧
        ∀ o' ∈ [3, 2, 1, 0], o < o' → expiryDates.filter
          (fun x => matchesTarget x (targetYM nowYear nowMonth o')) = []) := by
  refine ⟨?_, selectLoop_eq_none_iff expiryDates nowYear nowMonth [3, 2, 1, 0], ?_⟩
  · intro offset
    unfold targetYM
    constructor
    · exact Nat.mod_lt _ (by norm_num)
    · simp only []
      omega
  · intro e he
    obtain ⟨o, ho, hmem, hmatch, hmax, pre, suf, hsplit, hpre⟩ :=
      selectLoop_eq_some expiryDates nowYear nowMonth [3, 2, 1, 0] e he
    have hm := hmatch
    simp only [matchesTarget, Bool.and_eq_true, beq_iff_eq] at hm
    refine ⟨o, ho, hmem, hm.1, hm.2, ?_, ?_⟩
    · intro x hx hxm hxy
      have hnl := hmax x hx (by simp [matchesTarget, hxm, hxy])
      unfold dateLt at hnl
      omega
    · intro o' ho' hoo'
      -- the offsets are tried in decreasing order, so any o' > o sits in `pre`
      have hsplitPw : List.Pairwise (fun a b => b ≤ a) (pre ++ o :: suf) := by
        rw [← hsplit]
        decide
      have hp := List.pairwise_append.1 hsplitPw
      rw [hsplit] at ho'
      rcases List.mem_append.1 ho' with hmem' | hmem'
      · exact hpre o' hmem'
      · exfalso
        rcases List.mem_cons.1 hmem' with rfl | hmem''
        · omega
        · have : o' ≤ o := (List.pairwise_cons.1 hp.2.1).1 o' hmem''
          omega

/-- Expiry dates 27-JUN-2025, 25-SEP-2025, 30-SEP-2025 as parsed
(year, 0-based month, day). -/
def expiryListEx : List ExpiryDate :=
  [⟨2025, 5, 27⟩, ⟨2025, 8, 25⟩, ⟨2025, 8, 30⟩]

theorem C4_expiry_selection_witness :
    ∃ o ∈ [3, 2, 1, 0],
      (⟨2025, 8, 30⟩ : ExpiryDate) ∈ expiryListEx ∧
      (⟨2025, 8, 30⟩ : ExpiryDate).month = (targetYM 2025 5 o).2 ∧
      (⟨2025, 8, 30⟩ : ExpiryDate).year = (targetYM 2025 5 o).1 ∧
      (∀ x ∈ expiryListEx,
        x.month = (targetYM 2025 5 o).2 →
        x.year = (targetYM 2025 5 o).1 → x.day ≤ (⟨2025, 8, 30⟩ : ExpiryDate).day) ∧
      ∀ o' ∈ [3, 2, 1, 0], o < o' → expiryListEx.filter
        (fun x => matchesTarget x (targetYM 2025 5 o')) = [] :=
  (C4_expiry_selection expiryListEx 2025 5).2.2 ⟨2025, 8, 30⟩ (by decide)

/-! ## HTTP retry loop (`makeApiRequest`, `OptionChainService.js` lines 16-33)

A transport is a function from 0-based attempt index to that attempt's
outcome; the loop is embedded as a pure function returning the final
outcome together with the inter-attempt waits (ms) and the number of
attempts performed. -/

/-- Result of a `makeApiRequest` run. -/
structure RetryTrace (α : Type) where
  result : Except String α
  delays : List ℕ
  attempts : ℕ
deriving Repr

/-- The `while (attempt < maxRetries)` loop: try, and on failure increment
`attempt` and — only when another attempt remains — wait
`500 * attempt` ms; once `attempt` reaches `maxRetries`, throw
`"API request failed after ${maxRetries} attempts: ${lastError.message}"`. -/
def retryLoop {α : Type} (transport : ℕ → Except String α) (maxRetries : ℕ)
    (attempt : ℕ) (lastErr : String) : RetryTrace α :=
  if maxRetries - attempt = 0 then
    { result := .error ("API request failed after " ++ toString maxRetries ++
        " attempts: " ++ lastErr)
      delays := [], attempts := 0 }
  else
    match transport attempt with
    | .ok a => { result := .ok a, delays := [], attempts := 1 }
    | .error e =>
      let rest := retryLoop transport maxRetries (attempt + 1) e
      { result := rest.result
        delays := (if attempt + 1 < maxRetries then [500 * (attempt + 1)] else [])
          ++ rest.delays
        attempts := 1 + rest.attempts }
termination_by maxRetries - attempt
decreasing_by omega

theorem retryLoop_done {α : Type} (transport : ℕ → Except String α) (lastErr : String) :
    retryLoop transport 3 3 lastErr =
      { result := .error ("API request failed after 3 attempts: " ++ lastErr)
        delays := [], attempts := 0 } := by
  rw [retryLoop.eq_def]
  rfl

theorem retryLoop_next {α : Type} (transport : ℕ → Except String α)
    (attempt : ℕ) (lastErr : String) (h : attempt < 3) :
    retryLoop transport 3 attempt lastErr =
      match transport attempt with
      | .ok a => { result := .ok a, delays := [], attempts := 1 }
      | .error e =>
        { result := (retryLoop transport 3 (attempt + 1) e).result
          delays := (if attempt + 1 < 3 then [500 * (attempt + 1)] else [])
            ++ (retryLoop transport 3 (attempt + 1) e).delays
          attempts := 1 + (retryLoop transport 3 (attempt + 1) e).attempts } := by
  rw [retryLoop.eq_def, if_neg (by omega)]

/-- `makeApiRequest`: `maxRetries = 3`, `attempt = 0` (the initial
`lastError` is unreachable for `maxRetries > 0`). -/
def makeApiRequest {α : Type} (transport : ℕ → Except String α) : RetryTrace α :=
  retryLoop transport 3 0 ""

/-- A transport refusing every attempt. -/
def alwaysRefused : ℕ → Except String ℚ := fun _ => .error "ECONNREFUSED"

/-- Exhaustive description of a `makeApiRequest` run by the outcomes of
the three possible attempts. -/
theorem makeApiRequest_cases {α : Type} (transport : ℕ → Except String α)
    (g : RetryTrace α → Prop)
    (h0 : ∀ a, transport 0 = .ok a →
      g { result := .ok a, delays := [], attempts := 1 })
    (h1 : ∀ e0 a, transport 0 = .error e0 → transport 1 = .ok a →
      g { result := .ok a, delays := [500], attempts := 2 })
    (h2 : ∀ e0 e1 a, transport 0 = .error e0 → transport 1 = .error e1 →
      transport 2 = .ok a →
      g { result := .ok a, delays := [500, 1000], attempts := 3 })
    (h3 : ∀ e0 e1 e2, transport 0 = .error e0 → transport 1 = .error e1 →
      transport 2 = .error e2 →
      g { result := .error ("API request failed after 3 attempts: " ++ e2),
          delays := [500, 1000], attempts := 3 }) :
    g (makeApiRequest transport) := by
  rcases ht0 : transport 0 with e0 | a0
  · rcases ht1 : transport 1 with e1 | a1
    · rcases ht2 : transport 2 with e2 | a2
      · suffices hs : makeApiRequest transport =
            { result := .error ("API request failed after 3 attempts: " ++ e2)
              delays := [500, 1000], attempts := 3 } by
          rw [hs]
          exact h3 e0 e1 e2 ht0 ht1 ht2
        simp [makeApiRequest, retryLoop_next, retryLoop_done, ht0, ht1, ht2]
      · suffices hs : makeApiRequest transport =
            { result := .ok a2, delays := [500, 1000], attempts := 3 } by
          rw [hs]
          exact h2 e0 e1 a2 ht0 ht1 ht2
        simp [makeApiRequest, retryLoop_next, ht0, ht1, ht2]
    · suffices hs : makeApiRequest transport =
          { result := .ok a1, delays := [500], attempts := 2 } by
        rw [hs]
        exact h1 e0 a1 ht0 ht1
      simp [makeApiRequest, retryLoop_next, ht0, ht1]
  · suffices hs : makeApiRequest transport =
        { result := .ok a0, delays := [], attempts := 1 } by
      rw [hs]
      exact h0 a0 ht0
    simp [makeApiRequest, retryLoop_next, ht0]

/-- When all three attempts fail, the run wraps the final message, after
waits of 500 ms and 1000 ms. -/
theorem makeApiRequest_allFail {α : Type} (transport : ℕ → Except String α)
    (e0 e1 e2 : String) (h0 : transport 0 = .error e0)
    (h1 : transport 1 = .error e1) (h2 : transport 2 = .error e2) :
    (makeApiRequest transport).result =
      .error ("API request failed after 3 attempts: " ++ e2) ∧
    (makeApiRequest transport).attempts = 3 ∧
    (makeApiRequest transport).delays = [500, 1000] := by
  refine makeApiRequest_cases transport (fun t =>
    t.result = .error ("API request failed after 3 attempts: " ++ e2) ∧
    t.attempts = 3 ∧ t.delays = [500, 1000]) ?_ ?_ ?_ ?_
  · intro a ha
    rw [ha] at h0
    cases h0
  · intro e0' a he ha
    rw [ha] at h1
    cases h1
  · intro e0' e1' a he he' ha
    rw [ha] at h2
    cases h2
  · intro e0' e1' e2' he0 he1 he2
    rw [h2] at he2
    injection he2 with he
    rw [he]
    exact ⟨rfl, rfl, rfl⟩

/-- C5 counterexample: the fetcher's observed inter-attempt waits are
500 ms then 1000 ms — each strictly below `2^attempt × 1000 + jitter` for
every jitter ≥ 0 (minimum 1000 ms for attempt 0, 2000 ms for attempt 1),
so the claimed backoff formula does not describe the code. -/
theorem C5_retry_counterexample :
    (makeApiRequest alwaysRefused).delays = [500, 1000] ∧
    500 < 2 ^ 0 * 1000 + 0 ∧ 1000 < 2 ^ 1 * 1000 + 0 := by
  exact ⟨(makeApiRequest_allFail alwaysRefused "ECONNREFUSED" "ECONNREFUSED"
    "ECONNREFUSED" rfl rfl rfl).2.2, by norm_num, by norm_num⟩

/-- C5 (amended): each request is attempted at most 3 times in total; the
wait before retry number k (k = 1, 2) is `500 × k` ms — deterministic,
with no jitter, so the second inter-attempt delay (1000 ms) is strictly
greater than the first (500 ms); and when all three attempts fail, the
caller receives an error wrapping the final attempt's message as
`"API request failed after 3 attempts: <message>"`. -/
theorem C5_retry (transport : ℕ → Except String ℚ) :
    (makeApiRequest transport).attempts ≤ 3 ∧
    (makeApiRequest transport).delays =
      List.take ((makeApiRequest transport).attempts - 1) [500, 1000] ∧
    (∀ d1 d2, (makeApiRequest transport).delays = [d1, d2] → d1 < d2) ∧
    (∀ e0 e1 e2, transport 0 = .error e0 → transport 1 = .error e1 →
      transport 2 = .error e2 →
      (makeApiRequest transport).result =
        .error ("API request failed after 3 attempts: " ++ e2) ∧
      (makeApiRequest transport).attempts = 3) := by
  refine makeApiRequest_cases transport (fun t => t.attempts ≤ 3 ∧
      t.delays = List.take (t.attempts - 1) [500, 1000] ∧
      (∀ d1 d2, t.delays = [d1, d2] → d1 < d2) ∧
      (∀ e0 e1 e2, transport 0 = .error e0 → transport 1 = .error e1 →
        transport 2 = .error e2 →
        t.result = .error ("API request failed after 3 attempts: " ++ e2) ∧
        t.attempts = 3)) ?_ ?_ ?_ ?_
  · intro a h
    refine ⟨by norm_num, rfl, by simp, ?_⟩
    intro e0 _ _ he0 _ _
    rw [h] at he0
    cases he0
  · intro e0 a h0 h1
    refine ⟨by norm_num, rfl, by simp, ?_⟩
    intro _ e1 _ _ he1 _
    rw [h1] at he1
    cases he1
  · intro e0 e1 a h0 h1 h2
    refine ⟨by norm_num, rfl, ?_, ?_⟩
    · intro d1 d2 hd
      injection hd with hd1 hd
      injection hd with hd2 _
      omega
    · intro _ _ e2 _ _ he2
      rw [h2] at he2
      cases he2
  · intro e0 e1 e2 h0 h1 h2
    refine ⟨by norm_num, rfl, ?_, ?_⟩
    · intro d1 d2 hd
      injection hd with hd1 hd
      injection hd with hd2 _
      omega
    · intro e0' e1' e2' h0' h1' h2'
      rw [h2] at h2'
      injection h2' with he
      rw [he]
      exact ⟨rfl, rfl⟩

theorem C5_retry_witness :
    (makeApiRequest alwaysRefused).result =
      .error ("API request failed after 3 attempts: " ++ "ECONNREFUSED") ∧
    (makeApiRequest alwaysRefused).attempts = 3 :=
  (C5_retry alwaysRefused).2.2.2 "ECONNREFUSED" "ECONNREFUSED" "ECONNREFUSED" rfl rfl rfl

/-! ## Request timeout (`OptionChainService` constructor and
`_makeApiRequestOnce`) -/

/-- `this.requestTimeout = 30000; // 30 seconds` (constructor, lines
4-10). -/
def requestTimeoutMs : ℕ := 30000

/-- One `_makeApiRequestOnce` attempt, abstracted over how long the
upstream takes: when the elapsed time reaches `requestTimeout` the request
is destroyed and the attempt rejects with `'API request timeout'`
(lines 94-100); otherwise the underlying outcome stands. -/
def makeApiRequestOnceOutcome {α : Type} (elapsedMs : ℕ)
    (body : Except String α) : Except String α :=
  if requestTimeoutMs ≤ elapsedMs then .error "API request timeout" else body

/-- C8 counterexample: the fixed per-request timeout is 30000 ms
(30 seconds), not 25 seconds. -/
theorem C8_timeout_counterexample :
    requestTimeoutMs = 30000 ∧ requestTimeoutMs ≠ 25000 := by
  constructor <;> decide

/-- C8 (amended): every request has a fixed 30-second timeout; an attempt
whose upstream takes at least that long fails with
`'API request timeout'`, is retried under the retry policy, and once the
3 attempts are exhausted the failure surfaces to the caller wrapping the
timeout message. -/
theorem C8_timeout (elapsed : ℕ → ℕ) (body : ℕ → Except String ℚ)
    (h : ∀ i, requestTimeoutMs ≤ elapsed i) :
    (∀ i, makeApiRequestOnceOutcome (elapsed i) (body i) =
      .error "API request timeout") ∧
    (makeApiRequest (fun i => makeApiRequestOnceOutcome (elapsed i) (body i))).result =
      .error ("API request failed after 3 attempts: " ++ "API request timeout") ∧
    (makeApiRequest (fun i => makeApiRequestOnceOutcome (elapsed i) (body i))).attempts = 3 := by
  have hall : ∀ i, makeApiRequestOnceOutcome (elapsed i) (body i) =
      .error "API request timeout" := by
    intro i
    rw [makeApiRequestOnceOutcome, if_pos (h i)]
  refine ⟨hall, ?_⟩
  exact (C5_retry _).2.2.2 _ _ _ (hall 0) (hall 1) (hall 2)

theorem C8_timeout_witness :
    makeApiRequestOnceOutcome 30000 (.ok (1 : ℚ)) = .error "API request timeout" :=
  (C8_timeout (fun _ => 30000) (fun _ => .ok 1) (fun _ => le_refl _)).1 0

/-! ## Black-Scholes greeks (`src/src/utils/optionMath.js` lines 7-26)

Inputs are rationals (a zero value also standing for a missing/falsy JS
input); the produced greeks are real-valued. -/

inductive OptionType where
  | call
  | put
deriving DecidableEq, Repr

/-- Standard normal density (`jStat.normal.pdf(x, 0, 1)`). -/
noncomputable def normPdf (x : ℝ) : ℝ :=
  Real.exp (-(x ^ 2) / 2) / Real.sqrt (2 * Real.pi)

/-- Standard normal distribution function (`jStat.normal.cdf(x, 0, 1)`). -/
noncomputable def normCdf (x : ℝ) : ℝ := ∫ t in Set.Iic x, normPdf t

structure Greeks where
  delta : ℝ
  gamma : ℝ
  theta : ℝ
  vega : ℝ
  rho : ℝ

/-- `calculateGreeks({ type, S, K, T, r, v })`: the `if (!S || !K || !T || !v)
return {}` guard followed by the closed-form Black-Scholes greeks. -/
noncomputable def calculateGreeks (ty : OptionType) (S K T r v : ℚ) :
    Option Greeks :=
  if S = 0 ∨ K = 0 ∨ T = 0 ∨ v = 0 then none
  else
    let Sr : ℝ := (S : ℝ)
    let Kr : ℝ := (K : ℝ)
    let Tr : ℝ := (T : ℝ)
    let rr : ℝ := (r : ℝ)
    let vr : ℝ := (v : ℝ)
    let d1 := (Real.log (Sr / Kr) + (rr + 1 / 2 * vr * vr) * Tr) / (vr * Real.sqrt Tr)
    let d2 := d1 - vr * Real.sqrt Tr
    let Nd1 := normCdf (match ty with | .call => d1 | .put => -d1)
    let Nd2 := normCdf (match ty with | .call => d2 | .put => -d2)
    let pdfD1 := normPdf d1
    some
      { delta := match ty with | .call => Nd1 | .put => Nd1 - 1
        gamma := pdfD1 / (Sr * vr * Real.sqrt Tr)
        theta :=
          match ty with
          | .call => (-Sr * pdfD1 * vr / (2 * Real.sqrt Tr) -
              rr * Kr * Real.exp (-rr * Tr) * Nd2) / 365
          | .put => (-Sr * pdfD1 * vr / (2 * Real.sqrt Tr) +
              rr * Kr * Real.exp (-rr * Tr) * Nd2) / 365
        vega := Sr * pdfD1 * Real.sqrt Tr / 100
        rho :=
          match ty with
          | .call => Kr * Tr * Real.exp (-rr * Tr) * Nd2 / 100
          | .put => -(Kr * Tr * Real.exp (-rr * Tr) * Nd2) / 100 }

/-- C9: the greeks calculator returns the empty result exactly when spot,
strike, time-to-expiry, or volatility is zero/missing — via the explicit
guard, as a value, never a thrown exception — and on every other input it
returns a full set of delta, gamma, theta, vega, rho values. -/
theorem C9_greeks_guard (ty : OptionType) (S K T r v : ℚ) :
    (calculateGreeks ty S K T r v = none ↔ (S = 0 ∨ K = 0 ∨ T = 0 ∨ v = 0)) ∧
    (¬(S = 0 ∨ K = 0 ∨ T = 0 ∨ v = 0) →
      ∃ g : Greeks, calculateGreeks ty S K T r v = some g) := by
  unfold calculateGreeks
  by_cases h : S = 0 ∨ K = 0 ∨ T = 0 ∨ v = 0
  · rw [if_pos h]
    exact ⟨⟨fun _ => h, fun _ => rfl⟩, fun hc => absurd h hc⟩
  · rw [if_neg h]
    exact ⟨⟨fun hn => absurd hn (Option.some_ne_none _), fun hh => absurd hh h⟩,
      fun _ => ⟨_, rfl⟩⟩

theorem C9_greeks_guard_witness :
    calculateGreeks .put 0 22000 (1/12) (6/100) (18/100) = none ∧
    ∃ g : Greeks, calculateGreeks .put 22500 22000 (1/12) (6/100) (18/100) = some g :=
  ⟨(C9_greeks_guard .put 0 22000 (1/12) (6/100) (18/100)).1.mpr (Or.inl rfl),
   (C9_greeks_guard .put 22500 22000 (1/12) (6/100) (18/100)).2 (by norm_num)⟩

/-! ## Expected-Nifty tool (`src/src/core/agents/tools/niftyDownsideTool.js`)

The tool is embedded with the already-fetched option chain as an argument
(the `await getOptionChain(...)` step); the rest of its body is pure. -/

/-- What the tool reads from the fetched chain: the underlying value and
the combined rows; `daysToExpiry` is not produced by the service, hence
optional. -/
structure OptionChain where
  underlyingValue : ℚ
  optionData : List OptionRow
  daysToExpiry : Option ℚ

/-- JS truthiness of a possibly-missing number. -/
def jsNumTruthy (o : Option ℚ) : Bool :=
  match o with
  | none => false
  | some x => decide (x ≠ 0)

/-- The `for (let i = 1; ...)` scan keeping the first index of minimal
`|strike - target|`. -/
def closestIdxGo (target : ℚ) : List ℚ → ℕ → ℚ → ℕ → ℕ
  | [], _, _, best => best
  | s :: rest, i, minDiff, best =>
    if |s - target| < minDiff then closestIdxGo target rest (i + 1) (|s - target|) i
    else closestIdxGo target rest (i + 1) minDiff best

/-- Index of the strike closest to `target` (first occurrence wins); `0`
for the empty list, as in the JS code where the scan never runs. -/
def closestIdx (strikes : List ℚ) (target : ℚ) : ℕ :=
  match strikes with
  | [] => 0
  | s :: rest => closestIdxGo target rest 1 (|s - target|) 0

/-- One entry of the tool's `putOptions` output:
`{ strikePrice, ...opt.put, greeks }`. -/
structure PutOptionEntry where
  strikePrice : ℚ
  put : OptionQuote
  greeks : Option Greeks

/-- `{ currentNifty, expectedNifty, surroundingStrikes, putOptions }`. -/
structure NiftyToolResult where
  currentNifty : ℚ
  expectedNifty : ℚ
  surroundingStrikes : List ℚ
  putOptions : List PutOptionEntry

/-- `calculateExpectedNifty({ symbol, expectedPercentage,
expectedNiftyValue })` (lines 14-98), after the option chain has been
fetched: derive the expected value from `expectedNiftyValue` if numeric,
else from `expectedPercentage` (rounded to 2 decimals), else throw; then
select up to 9 strikes around the closest strike and annotate the put
side of those rows with greeks. -/
noncomputable def calculateExpectedNifty (optionChain : OptionChain)
    (expectedPercentage expectedNiftyValue : Option ℚ) :
    Except String NiftyToolResult :=
  let currentNifty := optionChain.underlyingValue
  let expectedNiftyDerived : Option ℚ :=
    match expectedNiftyValue with
    | some x => some x
    | none =>
      match expectedPercentage with
      | some p => some (round2 (currentNifty * (1 - p / 100)))
      | none => none
  match expectedNiftyDerived with
  | none => .error "Either expectedPercentage or expectedNiftyValue must be provided"
  | some expectedNifty =>
    let strikePrices :=
      sortByKey id ((optionChain.optionData.map (fun o => o.strikePrice)).dedup)
    let cIdx := closestIdx strikePrices expectedNifty
    let start := cIdx - 4
    let stop := min strikePrices.length (cIdx + 5)
    let surroundingStrikes := (strikePrices.drop start).take (stop - start)
    let putOptions :=
      (optionChain.optionData.filter
        (fun opt => decide (opt.strikePrice ∈ surroundingStrikes))).map (fun opt =>
          let put := opt.put
          let T : ℚ :=
            if jsNumTruthy put.daysToExpiry then put.daysToExpiry.getD 0 / 365
            else if jsNumTruthy optionChain.daysToExpiry then
              optionChain.daysToExpiry.getD 0 / 365
            else 2 / 100
          { strikePrice := opt.strikePrice
            put := put
            greeks := calculateGreeks .put currentNifty opt.strikePrice T (6 / 100)
              (if put.impliedVolatility = 0 then 18 / 100
               else put.impliedVolatility / 100) })
    .ok
      { currentNifty := currentNifty
        expectedNifty := expectedNifty
        surroundingStrikes := surroundingStrikes
        putOptions := putOptions }

/-- C10: with neither `expectedPercentage` nor `expectedNiftyValue`
supplied, the tool fails with the typed
`'Either expectedPercentage or expectedNiftyValue must be provided'`
error and never fabricates a value; with `expectedNiftyValue` supplied the
call succeeds and uses it directly; with only `expectedPercentage`
supplied the call succeeds and derives
`round2(currentNifty × (1 - p / 100))`. -/
theorem C10_expected_nifty (chain : OptionChain)
    (expectedPercentage expectedNiftyValue : Option ℚ) :
    (expectedPercentage = none → expectedNiftyValue = none →
      calculateExpectedNifty chain expectedPercentage expectedNiftyValue =
        .error "Either expectedPercentage or expectedNiftyValue must be provided") ∧
    (∀ x, expectedNiftyValue = some x →
      ∃ out, calculateExpectedNifty chain expectedPercentage expectedNiftyValue =
          .ok out ∧
        out.expectedNifty = x ∧ out.currentNifty = chain.underlyingValue) ∧
    (∀ p, expectedNiftyValue = none → expectedPercentage = some p →
      ∃ out, calculateExpectedNifty chain expectedPercentage expectedNiftyValue =
          .ok out ∧
        out.expectedNifty = round2 (chain.underlyingValue * (1 - p / 100)) ∧
        out.currentNifty = chain.underlyingValue) := by
  refine ⟨?_, ?_, ?_⟩
  · rintro rfl rfl
    rfl
  · rintro x rfl
    exact ⟨_, rfl, rfl, rfl⟩
  · rintro p rfl rfl
    exact ⟨_, rfl, rfl, rfl⟩

/-- A minimal fetched chain for concrete instances. -/
def chainEx : OptionChain :=
  { underlyingValue := 25000, optionData := [], daysToExpiry := none }

theorem C10_expected_nifty_witness :
    calculateExpectedNifty chainEx none none =
      .error "Either expectedPercentage or expectedNiftyValue must be provided" ∧
    ∃ out, calculateExpectedNifty chainEx (some 2) none = .ok out ∧
      out.expectedNifty = round2 (25000 * (1 - 2 / 100)) ∧
      out.currentNifty = 25000 :=
  ⟨(C10_expected_nifty chainEx none none).1 rfl rfl,
   (C10_expected_nifty chainEx (some 2) none).2.2 2 rfl rfl⟩

end OptionsBot
